import Mathlib

/-!
Verification development for the DineAI-POS administrative scripts.

The repository is a collection of Python scripts that extract a restaurant
point-of-sale SQLite database into a JSON snapshot
(`extract_from_backup.py`, `simple_tablet_backup.py`, `extract_tablet_data.py`),
regenerate standalone restore scripts from the snapshot
(`create_restore_scripts`, and the checked-in generated artifacts under
`tablet_backup_20250829_234119/scripts/`), and prune a remote Firestore
mirror of the menu (`clear_firebase_menu.py`).

This file shallowly embeds those scripts: SQLite scalar values become an
inductive type, Python dicts become association lists with Python insertion
semantics, the database written by a restore script becomes a finite map
from primary-key value to row, and the Firestore state becomes explicit
lists of category and item documents.  Calls to `datetime.now()` and
`uuid.uuid4()` are environment inputs threaded explicitly.
-/

/-- A scalar value stored in an SQLite cell / JSON snapshot: `NULL`,
an integer, or a text string.  (The captured menu data in the repository
uses only these three kinds.) -/
inductive SqlValue where
  | null
  | int (n : Int)
  | text (s : String)
deriving DecidableEq

/-- A captured row, as the Python scripts represent it after
`dict(zip(columns, row))` / `json.load`: an association list from column
name to value, in key insertion order. -/
abbrev Row := List (String × SqlValue)

/-- First-match lookup in a row, the semantics of `d[k]` / `d.get(k)` on a
Python dict rendered as an association list (rows built by the scripts have
unique keys, so first match is the match). -/
def rowLookup (k : String) : Row → Option SqlValue
  | [] => none
  | (k1, v) :: r => if k1 = k then some v else rowLookup k r

/-- `category.get(key, default)`: the Python `dict.get` with a default. -/
def rowGet (r : Row) (k : String) (d : SqlValue) : SqlValue :=
  (rowLookup k r).getD d

/-- `d[k] = v` on a Python dict held as an association list: if the key is
present its value is updated in place (position preserved), otherwise the
pair is appended. -/
def pyInsert (d : List (String × SqlValue)) (k : String) (v : SqlValue) :
    List (String × SqlValue) :=
  match d with
  | [] => [(k, v)]
  | (k1, v1) :: rest =>
      if k1 = k then (k, v) :: rest else (k1, v1) :: pyInsert rest k v

/-- `dict(pairs)`: build a Python dict from a pair list by repeated
insertion, as `dict(zip(columns, row))` does in the extractors. -/
def pyDictOfPairs (pairs : List (String × SqlValue)) : Row :=
  pairs.foldl (fun d kv => pyInsert d kv.1 kv.2) []

/-- One successfully extracted table in the snapshot:
`{'columns': columns, 'data': table_data, 'count': len(table_data)}`
as built by `extract_from_backup` (and identically by
`simple_tablet_backup.extract_tablet_data`). -/
structure TableSnapshot where
  columns : List String
  data : List Row
  count : Nat
deriving DecidableEq

/-- A manifest entry for one table: either a successful snapshot or the
error placeholder `{'error': str(e), 'data': [], 'count': 0}`. -/
inductive TableEntry where
  | ok (snap : TableSnapshot)
  | err (msg : String) (data : List Row) (count : Nat)
deriving DecidableEq

/-- The successful branch of the per-table extraction loop in
`extract_from_backup`: rows are turned into `dict(zip(columns, row))`
mappings and wrapped with the column list and `len(table_data)`. -/
def extractTableOk (columns : List String) (rows : List (List SqlValue)) :
    TableSnapshot :=
  let tableData := rows.map (fun row => pyDictOfPairs (columns.zip row))
  { columns := columns, data := tableData, count := tableData.length }

/-- The result of attempting to read one table: either its column list and
raw row tuples, or the message of the exception the read raised. -/
abbrev ReadResult := Except String (List String × List (List SqlValue))

/-- The body of the per-table loop of `extract_from_backup`: a successful
read becomes a snapshot, a raised exception becomes
`{'error': str(e), 'data': [], 'count': 0}`. -/
def readResultEntry (res : ReadResult) : TableEntry :=
  match res with
  | .ok (columns, rows) => .ok (extractTableOk columns rows)
  | .error e => .err e [] 0

/-- The whole extraction loop: every listed table is processed in order and
contributes exactly one manifest entry; an erroring table does not stop the
loop. -/
def extractAll (tables : List (String × ReadResult)) :
    List (String × TableEntry) :=
  tables.map (fun t => (t.1, readResultEntry t.2))

/-- A row of the destination `categories` table as written by the generated
`restore_categories` script: exactly the nine columns named in its
`INSERT OR REPLACE` statement. -/
structure CatRow where
  id : SqlValue
  name : SqlValue
  description : SqlValue
  color : SqlValue
  icon : SqlValue
  sort_order : SqlValue
  is_active : SqlValue
  created_at : SqlValue
  updated_at : SqlValue
deriving DecidableEq

/-- The environment consumed by one iteration of the restore loop:
`str(uuid.uuid4())` and the two separate `datetime.now().isoformat()`
calls that supply defaults for `id`, `created_at` and `updated_at`. -/
structure RowEnv where
  uuid : String
  now1 : String
  now2 : String

/-- The tuple bound by one iteration of the generated
`restore_categories` loop: each field is `category.get(column, default)`
with the literal defaults of the generated script. -/
def mkCatRow (e : RowEnv) (r : Row) : CatRow :=
  { id := rowGet r "id" (.text e.uuid)
    name := rowGet r "name" (.text "")
    description := rowGet r "description" (.text "")
    color := rowGet r "color" (.text "#FF6B6B")
    icon := rowGet r "icon" (.text "🍽️")
    sort_order := rowGet r "sort_order" (.int 0)
    is_active := rowGet r "is_active" (.int 1)
    created_at := rowGet r "created_at" (.text e.now1)
    updated_at := rowGet r "updated_at" (.text e.now2) }

/-- The columns the generated `restore_categories` script writes, in the
order of its `INSERT OR REPLACE` statement. -/
def restoredColumns : List String :=
  ["id", "name", "description", "color", "icon", "sort_order",
   "is_active", "created_at", "updated_at"]

/-- Read one named column out of a restored `categories` row; columns not
written by the generated script do not exist on it. -/
def catRowField (c : CatRow) (k : String) : Option SqlValue :=
  if k = "id" then some c.id
  else if k = "name" then some c.name
  else if k = "description" then some c.description
  else if k = "color" then some c.color
  else if k = "icon" then some c.icon
  else if k = "sort_order" then some c.sort_order
  else if k = "is_active" then some c.is_active
  else if k = "created_at" then some c.created_at
  else if k = "updated_at" then some c.updated_at
  else none

/-- The destination `categories` table, keyed by its primary-key `id`
value: `INSERT OR REPLACE` replaces the row sharing the same id. -/
abbrev CatDB := SqlValue → Option CatRow

/-- An empty destination database. -/
def emptyDB : CatDB := fun _ => none

/-- One `INSERT OR REPLACE INTO categories ...` execution. -/
def insertOrReplaceCat (c : CatRow) (db : CatDB) : CatDB :=
  fun k => if k = c.id then some c else db k

/-- The restore loop, starting at iteration index `i` (the index selects
the per-iteration environment): each captured row is materialised with
`mkCatRow` and written with insert-or-replace. -/
def restoreCatsFrom (env : Nat → RowEnv) (i : Nat) (rows : List Row)
    (db : CatDB) : CatDB :=
  match rows with
  | [] => db
  | r :: rest =>
      restoreCatsFrom env (i + 1) rest
        (insertOrReplaceCat (mkCatRow (env i) r) db)

/-- Executing the generated `restore_categories` script over database state
`db` with environment `env`. -/
def restoreCategories (env : Nat → RowEnv) (rows : List Row)
    (db : CatDB) : CatDB :=
  restoreCatsFrom env 0 rows db

/-- The last write (if any) the restore loop starting at index `i` performs
at key `k`; characterises the loop's effect on one key. -/
def lastVal (env : Nat → RowEnv) (i : Nat) (rows : List Row)
    (k : SqlValue) : Option CatRow :=
  match rows with
  | [] => none
  | r :: rest =>
      match lastVal env (i + 1) rest k with
      | some c => some c
      | none =>
          if k = (mkCatRow (env i) r).id
          then some (mkCatRow (env i) r) else none

/-- A Python runtime object, to the extent the `isinstance` test in
`restore_all_data` can observe it: a `str` or something else. -/
inductive PyObj where
  | str (s : String)
  | intObj (n : Int)
deriving DecidableEq

/-- Python `isinstance(x, str)`. -/
def pyIsinstanceStr : PyObj → Bool
  | .str _ => true
  | .intObj _ => false

/-- The substitution `'' if isinstance(col, str) else 0` performed by
`restore_all_data` when a value is `None`: crucially, the `isinstance`
test is applied to `col`, the column NAME (always a `str`), not to the
value. -/
def noneSubst (col : String) : SqlValue :=
  if pyIsinstanceStr (.str col) then .text "" else .int 0

/-- One iteration of the value-preparation loop of `restore_all_data`:
`value = row.get(col)` (missing key gives `None`, like a captured SQL
`NULL`), then `None` is replaced via `noneSubst`. -/
def prepRowValue (col : String) (row : Row) : SqlValue :=
  match rowLookup col row with
  | none => noneSubst col
  | some .null => noneSubst col
  | some v => v

/-- The prepared value tuple for one row in `restore_all_data`. -/
def prepValues (columns : List String) (row : Row) : List SqlValue :=
  columns.map (fun col => prepRowValue col row)

/-- A category document in the Firestore mirror: its document id and its
`name` field (as read by `cat_data.get('name', '')`). -/
structure CatDoc where
  id : String
  name : String
deriving DecidableEq

/-- A menu-item document in the Firestore mirror: its document id, its
`name`, and its `categoryId` reference. -/
structure ItemDoc where
  id : String
  name : String
  categoryId : String
deriving DecidableEq

/-- The per-tenant Firestore state touched by `clear_firebase_menu`: the
`categories` and `menu_items` collections. -/
structure MenuState where
  cats : List CatDoc
  items : List ItemDoc
deriving DecidableEq

/-- The body of the category-deletion loop of `clear_firebase_menu` for one
category marked for deletion: first delete every menu item whose
`categoryId` equals the category's document id, then delete the category
document itself. -/
def deleteCategoryPass (st : MenuState) (c : CatDoc) : MenuState :=
  { cats := st.cats.filter (fun c1 => c1.id != c.id)
    items := st.items.filter (fun it => it.categoryId != c.id) }

/-- The orphan test of the second pass of `clear_firebase_menu`: an item
survives iff some category in the ORIGINAL category snapshot has the item's
`categoryId` as document id and a name in the keep-list. -/
def belongsToKeptCategory (categories : List CatDoc) (keep : List String)
    (it : ItemDoc) : Bool :=
  categories.any (fun c => c.id == it.categoryId && decide (c.name ∈ keep))

/-- The success path of `clear_firebase_menu(tenant, keep)`: snapshot the
categories, delete every category whose name is not in the keep-list
(cascading to its items), then sweep away every item that does not belong
to a kept category of the original snapshot. -/
def clearFirebaseMenu (keep : List String) (st : MenuState) : MenuState :=
  let categories := st.cats
  let categoriesToDelete := categories.filter (fun c => !(decide (c.name ∈ keep)))
  let st1 := categoriesToDelete.foldl deleteCategoryPass st
  { cats := st1.cats
    items := st1.items.filter (belongsToKeptCategory categories keep) }

/-- The `main` of `clear_firebase_menu.py` reduced to its observable
effect: without `--confirm` it exits with status 1 before touching the
store; with it, the pruning flow runs and the process exits 0 on success,
1 on failure (`tenantOk` stands for the tenant-existence check). -/
def mainFlow (confirm : Bool) (keep : List String) (tenantOk : Bool)
    (st : MenuState) : Nat × MenuState :=
  if !confirm then (1, st)
  else if !tenantOk then (1, st)
  else (0, clearFirebaseMenu keep st)

/-- One hexadecimal digit, lowercase, as Python's `\uXXXX` escapes use. -/
def hexDigit (n : Nat) : Char :=
  if n < 10 then Char.ofNat (48 + n) else Char.ofNat (87 + n)

/-- Four-digit lowercase hexadecimal rendering of a code unit. -/
def hex4 (n : Nat) : String :=
  String.mk [hexDigit (n / 4096 % 16), hexDigit (n / 256 % 16),
             hexDigit (n / 16 % 16), hexDigit (n % 16)]

/-- `json.dumps` escaping of one character with the default
`ensure_ascii=True`: the two-character escapes for quote, backslash and
control characters with short forms, `\uXXXX` for other control and all
non-ASCII characters (surrogate pairs beyond the BMP). -/
def jsonEscChar (c : Char) : String :=
  if c = Char.ofNat 34 then "\\\""
  else if c = Char.ofNat 92 then "\\\\"
  else if c = Char.ofNat 10 then "\\n"
  else if c = Char.ofNat 9 then "\\t"
  else if c = Char.ofNat 13 then "\\r"
  else if c = Char.ofNat 8 then "\\b"
  else if c = Char.ofNat 12 then "\\f"
  else if c.toNat < 32 ∨ c.toNat > 126 then
    if c.toNat ≥ 65536 then
      let m := c.toNat - 65536
      "\\u" ++ hex4 (55296 + m / 1024) ++ "\\u" ++ hex4 (56320 + m % 1024)
    else "\\u" ++ hex4 c.toNat
  else String.singleton c

/-- `json.dumps` rendering of a string literal. -/
def jsonEscString (s : String) : String :=
  "\"" ++ String.join (s.data.map jsonEscChar) ++ "\""

/-- `json.dumps` rendering of one scalar value. -/
def jsonScalar (v : SqlValue) : String :=
  match v with
  | .null => "null"
  | .int n => toString n
  | .text s => jsonEscString s

/-- `json.dumps` of one captured row (a dict) at `indent=4`, as it appears
nested one level inside the list: keys in insertion order, items separated
by `,\n` and indented eight spaces. -/
def jsonDumpRow (r : Row) : String :=
  match r with
  | [] => "    \x7b\x7d"
  | _ =>
      "    \x7b\n"
        ++ String.intercalate ",\n"
             (r.map (fun kv =>
               "        " ++ jsonEscString kv.1 ++ ": " ++ jsonScalar kv.2))
        ++ "\n    \x7d"

/-- `json.dumps(categories, indent=4)`: the list of captured row dicts. -/
def jsonDumpsRows (rows : List Row) : String :=
  match rows with
  | [] => "[]"
  | _ => "[\n" ++ String.intercalate ",\n" (rows.map jsonDumpRow) ++ "\n]"

/-- The literal text of the generated categories restore script before the
embedded `datetime.now().strftime` generation timestamp. -/
def catsTplA : String :=
"#!/usr/bin/env python3\n\"\"\"\nCategories Restore Script\nGenerated on: "

/-- The literal text between the generation timestamp and the embedded
`json.dumps(categories, indent=4)` data. -/
def catsTplB : String :=
"\n\"\"\"\n\nimport sqlite3\nimport uuid\nfrom datetime import datetime\n\ndef restore_categories():\n    \"\"\"Restore all categories from tablet backup\"\"\"\n    \n    DB_PATH = \"restaurant_ohbombaymilton_at_gmail_com.db\"\n    \n    categories = "

/-- The literal text between the embedded data and the interpolated
`len(categories)` count. -/
def catsTplC : String :=
"\n    \n    try:\n        conn = sqlite3.connect(DB_PATH)\n        cursor = conn.cursor()\n        \n        print(f\"Restoring "

/-- The literal tail of the generated script after the interpolated
count. -/
def catsTplD : String :=
" categories...\")\n        \n        for category in categories:\n            try:\n                cursor.execute(\"\"\"\n                    INSERT OR REPLACE INTO categories (\n                        id, name, description, color, icon, sort_order, is_active, \n                        created_at, updated_at\n                    ) VALUES (?, ?, ?, ?, ?, ?, ?, ?, ?)\n                \"\"\", (\n                    category.get(\x27id\x27, str(uuid.uuid4())),\n                    category.get(\x27name\x27, \x27\x27),\n                    category.get(\x27description\x27, \x27\x27),\n                    category.get(\x27color\x27, \x27#FF6B6B\x27),\n                    category.get(\x27icon\x27, \x27🍽️\x27),\n                    category.get(\x27sort_order\x27, 0),\n                    category.get(\x27is_active\x27, 1),\n                    category.get(\x27created_at\x27, datetime.now().isoformat()),\n                    category.get(\x27updated_at\x27, datetime.now().isoformat())\n                ))\n                \n                print(f\"Restored category: \x7bcategory.get(\x27name\x27, \x27Unknown\x27)\x7d\")\n                \n            except Exception as e:\n                print(f\"Error restoring category \x7bcategory.get(\x27name\x27, \x27Unknown\x27)\x7d: \x7be\x7d\")\n        \n        conn.commit()\n        conn.close()\n        print(\"Categories restoration completed!\")\n        \n    except Exception as e:\n        print(f\"Error restoring categories: \x7be\x7d\")\n\nif __name__ == \"__main__\":\n    restore_categories()\n"

/-- The full content of the categories restore script produced by
`create_restore_scripts`: its f-string template with the generation
timestamp, the `json.dumps` of the captured rows and `len(categories)`
interpolated. -/
def categoriesScriptContent (ts : String) (cats : List Row) : String :=
  catsTplA ++ ts ++ catsTplB ++ jsonDumpsRows cats ++ catsTplC
    ++ toString cats.length ++ catsTplD

/-- A fixed environment for concrete evaluations: one uuid and one pair of
timestamps, the same at every loop index. -/
def envFix : Nat → RowEnv :=
  fun _ => { uuid := "fixed-uuid", now1 := "2025-08-30T00:00:00.000000",
             now2 := "2025-08-30T00:00:00.000001" }

/-- The sparse captured category row of the specification scenario:
`{id:"cat_1", name:"Soups", sort_order:1}` and no other fields. -/
def rSparse : Row :=
  [("id", .text "cat_1"), ("name", .text "Soups"), ("sort_order", .int 1)]

/-- A captured category row carrying an `image_url` field, as the rows in
the checked-in `tablet_backup_20250829_234119` snapshot actually do. -/
def rImg : Row :=
  [("id", .text "cat_x"), ("name", .text "X"),
   ("image_url", .text "pic.png")]

/-- A concrete two-table reader result: one readable table and one whose
read raised `no such table: orders`. -/
def tablesW : List (String × ReadResult) :=
  [("categories", .ok (["id", "name"], [[.text "c1", .text "Soups"]])),
   ("orders", .error "no such table: orders")]

/-- A concrete Firestore state: two categories and three items, one of the
items dangling. -/
def menuW : MenuState :=
  { cats := [{ id := "c1", name := "Snacks" }, { id := "c2", name := "Mains" }]
    items := [{ id := "i1", name := "Samosa", categoryId := "c1" },
              { id := "i2", name := "Curry", categoryId := "c2" },
              { id := "i3", name := "Ghost", categoryId := "c9" }] }

/-- A one-row captured categories table whose row carries `image_url`. -/
def rowsImg : List Row := [rImg]

/-- Concrete column list for a small snapshot. -/
def colsW : List String := ["id", "name"]

/-- Concrete raw row tuples for a small snapshot. -/
def rowsValsW : List (List SqlValue) := [[.text "c1", .text "Soups"]]

/-- The restore loop, observed at one key, applies the last write to that
key if any, else leaves the database unchanged there. -/
theorem restoreCatsFrom_lookup (env : Nat → RowEnv) (rows : List Row) :
    ∀ (i : Nat) (db : CatDB) (k : SqlValue),
      restoreCatsFrom env i rows db k
        = match lastVal env i rows k with
          | some c => some c
          | none => db k := by
  induction rows with
  | nil => intro i db k; rfl
  | cons r rest ih =>
      intro i db k
      rw [restoreCatsFrom, ih, lastVal]
      cases lastVal env (i + 1) rest k with
      | some c => rfl
      | none => by_cases h : k = (mkCatRow (env i) r).id <;>
          simp [insertOrReplaceCat, h]

/-- When a row carries an `id` field, the key it is written under is that
field's value, independent of the environment. -/
theorem mkCatRow_id_of_lookup (e : RowEnv) (r : Row) (v : SqlValue)
    (h : rowLookup "id" r = some v) : (mkCatRow e r).id = v := by
  simp [mkCatRow, rowGet, h]

/-- For rows that all carry an `id` field, the loop writes nothing at key
`k` exactly when no row's id equals `k`. -/
theorem lastVal_eq_none_iff (env : Nat → RowEnv) (rows : List Row) :
    ∀ (i : Nat) (k : SqlValue),
      (∀ r ∈ rows, (rowLookup "id" r).isSome) →
      (lastVal env i rows k = none ↔ ∀ r ∈ rows, rowLookup "id" r ≠ some k) := by
  induction rows with
  | nil => intro i k _; simp [lastVal]
  | cons r rest ih =>
      intro i k hid
      obtain ⟨v, hv⟩ := Option.isSome_iff_exists.mp (hid r (by simp))
      have hrest : ∀ r1 ∈ rest, (rowLookup "id" r1).isSome :=
        fun r1 h1 => hid r1 (by simp [h1])
      rw [lastVal]
      cases hr : lastVal env (i + 1) rest k with
      | some c =>
          simp only [reduceCtorEq, false_iff]
          intro hall
          have : lastVal env (i + 1) rest k = none :=
            (ih (i + 1) k hrest).mpr (fun r1 h1 => hall r1 (by simp [h1]))
          simp [this] at hr
      | none =>
          have hboth := (ih (i + 1) k hrest).mp hr
          rw [mkCatRow_id_of_lookup (env i) r v hv]
          constructor
          · intro h1
            intro r1 h2
            rcases List.mem_cons.mp h2 with h3 | h3
            · subst h3
              rw [hv]
              intro hc
              have : k = v := by
                injection hc with hc1
                exact hc1.symm
              simp [this] at h1
            · exact hboth r1 h3
          · intro h1
            have := h1 r (by simp)
            rw [hv] at this
            have hkv : ¬ k = v := fun he => this (by rw [he])
            simp [hkv]

/-- With all-id rows and pairwise-distinct ids, the restore loop's last
write at the i-th row's id is the i-th row's materialisation. -/
theorem lastVal_at_index (env : Nat → RowEnv) (rows : List Row) :
    ∀ (i0 i : Nat) (hi : i < rows.length),
      (∀ r ∈ rows, (rowLookup "id" r).isSome) →
      (rows.map (fun r => rowLookup "id" r)).Nodup →
      lastVal env i0 rows ((mkCatRow (env (i0 + i)) (rows.get ⟨i, hi⟩)).id)
        = some (mkCatRow (env (i0 + i)) (rows.get ⟨i, hi⟩)) := by
  induction rows with
  | nil => intro i0 i hi; simp at hi
  | cons r rest ih =>
      intro i0 i hi hid hnd
      obtain ⟨v, hv⟩ := Option.isSome_iff_exists.mp (hid r (by simp))
      have hrest : ∀ r1 ∈ rest, (rowLookup "id" r1).isSome :=
        fun r1 h1 => hid r1 (by simp [h1])
      have hnd2 : rowLookup "id" r ∉ rest.map (fun r => rowLookup "id" r) ∧
          (rest.map (fun r => rowLookup "id" r)).Nodup := by
        rw [List.map_cons, List.nodup_cons] at hnd
        exact hnd
      cases i with
      | zero =>
          have hkey : (mkCatRow (env (i0 + 0)) ((r :: rest).get ⟨0, hi⟩)).id = v :=
            mkCatRow_id_of_lookup _ r v hv
          rw [lastVal, hkey]
          have hnone : lastVal env (i0 + 1) rest v = none := by
            rw [lastVal_eq_none_iff env rest (i0 + 1) v hrest]
            intro r1 h1 hc
            apply hnd2.1
            rw [hv, ← hc]
            exact List.mem_map_of_mem _ h1
          rw [hnone]
          have : (mkCatRow (env i0) r).id = v := mkCatRow_id_of_lookup _ r v hv
          simp [this]
      | succ j =>
          have hj : j < rest.length := by simp at hi; omega
          have hidx : i0 + 1 + j = i0 + (j + 1) := by omega
          have hIH := ih (i0 + 1) j hj hrest hnd2.2
          rw [hidx] at hIH
          rw [lastVal]
          have hget : (r :: rest).get ⟨j + 1, hi⟩ = rest.get ⟨j, hj⟩ := rfl
          rw [hget, hIH]

/-- Inserting a fresh key into a Python dict appends the pair. -/
theorem pyInsert_of_not_mem (d : List (String × SqlValue)) (k : String)
    (v : SqlValue) (h : k ∉ d.map Prod.fst) : pyInsert d k v = d ++ [(k, v)] := by
  induction d with
  | nil => rfl
  | cons p rest ih =>
      obtain ⟨k1, v1⟩ := p
      simp only [List.map_cons, List.mem_cons] at h
      push_neg at h
      rw [pyInsert, if_neg (fun he => h.1 he.symm), ih h.2]
      rfl

/-- Building a Python dict from pairs with pairwise-distinct keys, starting
from accumulator `acc`, just appends the pairs. -/
theorem pyDictFold_nodup (pairs : List (String × SqlValue)) :
    ∀ acc : List (String × SqlValue),
      ((acc ++ pairs).map Prod.fst).Nodup →
      pairs.foldl (fun d kv => pyInsert d kv.1 kv.2) acc = acc ++ pairs := by
  induction pairs with
  | nil => intro acc _; simp
  | cons kv rest ih =>
      intro acc hnd
      obtain ⟨k, v⟩ := kv
      rw [List.foldl_cons]
      have hk : k ∉ acc.map Prod.fst := by
        intro hmem
        rw [List.map_append, List.nodup_append] at hnd
        exact hnd.2.2 hmem (by simp)
      rw [pyInsert_of_not_mem acc k v hk]
      have hnd2 : (((acc ++ [(k, v)]) ++ rest).map Prod.fst).Nodup := by
        rw [List.append_assoc]
        simpa using hnd
      rw [ih (acc ++ [(k, v)]) hnd2]
      simp

/-- `dict(pairs)` with pairwise-distinct keys is the pair list itself. -/
theorem pyDictOfPairs_eq_self (pairs : List (String × SqlValue))
    (hnd : (pairs.map Prod.fst).Nodup) : pyDictOfPairs pairs = pairs := by
  have := pyDictFold_nodup pairs [] (by simpa using hnd)
  simpa [pyDictOfPairs] using this

/-- A category survives the deletion loop iff it was there initially and
no deleted category shares its document id. -/
theorem mem_cats_after_deletes (ds : List CatDoc) :
    ∀ (st : MenuState) (c : CatDoc),
      c ∈ (ds.foldl deleteCategoryPass st).cats ↔
        c ∈ st.cats ∧ ∀ d ∈ ds, c.id ≠ d.id := by
  induction ds with
  | nil => intro st c; simp
  | cons d ds ih =>
      intro st c
      rw [List.foldl_cons, ih]
      simp only [deleteCategoryPass, List.mem_filter, bne_iff_ne, ne_eq,
        List.mem_cons, decide_not]
      constructor
      · rintro ⟨⟨h1, h2⟩, h3⟩
        refine ⟨h1, ?_⟩
        intro d1 hd1
        rcases hd1 with rfl | hd1
        · simpa using h2
        · exact h3 d1 hd1
      · rintro ⟨h1, h2⟩
        refine ⟨⟨h1, ?_⟩, fun d1 hd1 => h2 d1 (Or.inr hd1)⟩
        simpa using h2 d (Or.inl rfl)

/-- An item survives the deletion loop iff it was there initially and no
deleted category is the one it references. -/
theorem mem_items_after_deletes (ds : List CatDoc) :
    ∀ (st : MenuState) (it : ItemDoc),
      it ∈ (ds.foldl deleteCategoryPass st).items ↔
        it ∈ st.items ∧ ∀ d ∈ ds, it.categoryId ≠ d.id := by
  induction ds with
  | nil => intro st it; simp
  | cons d ds ih =>
      intro st it
      rw [List.foldl_cons, ih]
      simp only [deleteCategoryPass, List.mem_filter, bne_iff_ne, ne_eq,
        List.mem_cons, decide_not]
      constructor
      · rintro ⟨⟨h1, h2⟩, h3⟩
        refine ⟨h1, ?_⟩
        intro d1 hd1
        rcases hd1 with rfl | hd1
        · simpa using h2
        · exact h3 d1 hd1
      · rintro ⟨h1, h2⟩
        refine ⟨⟨h1, ?_⟩, fun d1 hd1 => h2 d1 (Or.inr hd1)⟩
        simpa using h2 d (Or.inl rfl)

/-- The generated script content decomposes as a fixed head, the embedded
generation timestamp, and a tail determined only by the captured data. -/
theorem c3_content_split (t : String) (cats : List Row) :
    (categoriesScriptContent t cats).data
      = catsTplA.data ++ (t.data
          ++ (catsTplB ++ jsonDumpsRows cats ++ catsTplC
              ++ toString cats.length ++ catsTplD).data) := by
  simp [categoriesScriptContent, String.data_append, List.append_assoc]

/-- C4 (confirmed). Snapshot count consistency: for a table successfully
read with `N` row tuples, the manifest snapshot's `count` equals `N`, its
`data` list has length equal to `count`, and each row is the
`dict(zip(columns, row))` column-to-value mapping. -/
theorem c4_snapshot_count (columns : List String)
    (rows : List (List SqlValue)) :
    (extractTableOk columns rows).count = rows.length
    ∧ (extractTableOk columns rows).data.length
        = (extractTableOk columns rows).count
    ∧ (extractTableOk columns rows).data
        = rows.map (fun row => pyDictOfPairs (columns.zip row))
    ∧ readResultEntry (Except.ok (columns, rows))
        = TableEntry.ok (extractTableOk columns rows) := by
  refine ⟨?_, ?_, ?_, rfl⟩ <;> simp [extractTableOk]

/-- C7 (confirmed). Confirmation gate: invoked without `--confirm`, the
flow exits with a non-zero status and performs no mutation of the store,
whatever the keep-list, tenant check, or store state. -/
theorem c7_confirm_gate (keep : List String) (tenantOk : Bool)
    (st : MenuState) :
    (mainFlow false keep tenantOk st).1 ≠ 0
    ∧ (mainFlow false keep tenantOk st).2 = st := by
  refine ⟨?_, ?_⟩ <;> simp [mainFlow]

/-- C10 (confirmed). In `restore_all_data`, a missing or `None` captured
value is always replaced by the empty string and never by `0`: the
`isinstance` test is applied to the column name, which is a `str`, so the
integer branch is unreachable for every column name. -/
theorem c10_null_to_empty (col : String) (row : Row)
    (h : rowLookup col row = none ∨ rowLookup col row = some SqlValue.null) :
    prepRowValue col row = SqlValue.text ""
    ∧ prepRowValue col row ≠ SqlValue.int 0
    ∧ ∀ c : String, noneSubst c ≠ SqlValue.int 0 := by
  have hsub : ∀ c : String, noneSubst c = SqlValue.text "" := by
    intro c
    simp [noneSubst, pyIsinstanceStr]
  rcases h with h | h <;>
    simp [prepRowValue, h, hsub]

/-- Witness for C10 at the concrete column `color` of a row whose captured
`color` is `NULL`. -/
theorem c10_witness :
    (rowLookup "color" [("color", SqlValue.null)] = none
      ∨ rowLookup "color" [("color", SqlValue.null)] = some SqlValue.null)
    ∧ (prepRowValue "color" [("color", SqlValue.null)] = SqlValue.text ""
       ∧ prepRowValue "color" [("color", SqlValue.null)] ≠ SqlValue.int 0
       ∧ ∀ c : String, noneSubst c ≠ SqlValue.int 0) :=
  ⟨Or.inr rfl, c10_null_to_empty "color" [("color", SqlValue.null)] (Or.inr rfl)⟩

/-- C2 (confirmed). Idempotence: when every embedded row carries an `id`
field, executing the generated restore script twice in sequence (each run
with its own environment) leaves exactly the database state a single
execution produces, because every row is rewritten keyed by its id. -/
theorem c2_restore_idempotent (env1 env2 : Nat → RowEnv) (rows : List Row)
    (db : CatDB) (hid : ∀ r ∈ rows, (rowLookup "id" r).isSome) :
    restoreCategories env2 rows (restoreCategories env1 rows db)
      = restoreCategories env2 rows db := by
  funext k
  rw [restoreCategories, restoreCategories, restoreCategories,
      restoreCatsFrom_lookup, restoreCatsFrom_lookup, restoreCatsFrom_lookup]
  cases h2 : lastVal env2 0 rows k with
  | some c => rfl
  | none =>
      have h1 : lastVal env1 0 rows k = none := by
        rw [lastVal_eq_none_iff env1 rows 0 k hid]
        exact (lastVal_eq_none_iff env2 rows 0 k hid).mp h2
      rw [h1]

/-- Witness for C2 on the concrete sparse categories row. -/
theorem c2_witness :
    (∀ r ∈ [rSparse], (rowLookup "id" r).isSome)
    ∧ restoreCategories envFix [rSparse]
          (restoreCategories envFix [rSparse] emptyDB)
        = restoreCategories envFix [rSparse] emptyDB :=
  ⟨by decide, c2_restore_idempotent envFix envFix [rSparse] emptyDB (by decide)⟩

/-- C8 counterexample: restoring the sparse row `{id:"cat_1", name:"Soups",
sort_order:1}` into a fresh destination does NOT default the boolean field
`is_active` to `0` nor the text field `color` to the empty string, as the
claim's quoted fallback policy would have it: the generated script's
literal defaults are `1` and `"#FF6B6B"`. -/
theorem c8_policy_counterexample :
    restoreCategories envFix [rSparse] emptyDB (SqlValue.text "cat_1")
      = some (mkCatRow (envFix 0) rSparse)
    ∧ (mkCatRow (envFix 0) rSparse).is_active = SqlValue.int 1
    ∧ (mkCatRow (envFix 0) rSparse).is_active ≠ SqlValue.int 0
    ∧ (mkCatRow (envFix 0) rSparse).color = SqlValue.text "#FF6B6B"
    ∧ (mkCatRow (envFix 0) rSparse).color ≠ SqlValue.text "" := by
  refine ⟨rfl, rfl, by decide, rfl, by decide⟩

/-- C8 (corrected). Restoring the sparse row `{id:"cat_1", name:"Soups",
sort_order:1}` against a fresh destination produces a row with the three
captured values preserved and the absent fields filled with the generated
script's literal defaults: `description` the empty string, `color`
`"#FF6B6B"`, `icon` the fork-and-knife emoji, `is_active` `1`, and
`created_at`/`updated_at` the execution-time timestamps. -/
theorem c8_sparse_row_defaults (env : Nat → RowEnv) :
    restoreCategories env [rSparse] emptyDB (SqlValue.text "cat_1")
      = some { id := SqlValue.text "cat_1", name := SqlValue.text "Soups",
               description := SqlValue.text "",
               color := SqlValue.text "#FF6B6B",
               icon := SqlValue.text "🍽️", sort_order := SqlValue.int 1,
               is_active := SqlValue.int 1,
               created_at := SqlValue.text (env 0).now1,
               updated_at := SqlValue.text (env 0).now2 } := by
  rfl

/-- C1 counterexample: the checked-in captured rows carry an `image_url`
field; the restored record produced from such a row has no `image_url`
column at all, so it is not field-for-field equal to the captured row. -/
theorem c1_dropped_field_counterexample :
    restoreCategories envFix rowsImg emptyDB (SqlValue.text "cat_x")
      = some (mkCatRow (envFix 0) rImg)
    ∧ rowLookup "image_url" rImg = some (SqlValue.text "pic.png")
    ∧ catRowField (mkCatRow (envFix 0) rImg) "image_url" = none := by
  refine ⟨rfl, rfl, rfl⟩

/-- C1 (corrected). Round-trip restricted to the restored column set: for
captured rows that all carry pairwise-distinct `id` fields, executing the
generated script against an empty destination stores, under each row's id,
a record that agrees with the captured row on every captured field among
the nine restored columns; captured fields outside those nine columns are
dropped (and absent ones among the nine receive the script's defaults). -/
theorem c1_restored_fields (env : Nat → RowEnv) (rows : List Row) (i : Nat)
    (hi : i < rows.length)
    (hid : ∀ r ∈ rows, (rowLookup "id" r).isSome)
    (hnd : (rows.map (fun r => rowLookup "id" r)).Nodup) :
    restoreCategories env rows emptyDB
        ((mkCatRow (env i) (rows.get ⟨i, hi⟩)).id)
      = some (mkCatRow (env i) (rows.get ⟨i, hi⟩))
    ∧ (∀ k v, rowLookup k (rows.get ⟨i, hi⟩) = some v →
        k ∈ restoredColumns →
        catRowField (mkCatRow (env i) (rows.get ⟨i, hi⟩)) k = some v)
    ∧ (∀ k, k ∉ restoredColumns →
        catRowField (mkCatRow (env i) (rows.get ⟨i, hi⟩)) k = none) := by
  refine ⟨?_, ?_, ?_⟩
  · rw [restoreCategories, restoreCatsFrom_lookup]
    have hlv := lastVal_at_index env rows 0 i hi hid hnd
    simp only [Nat.zero_add] at hlv
    rw [hlv]
  · intro k v hv hk
    simp only [restoredColumns, List.mem_cons, List.not_mem_nil,
      or_false] at hk
    simp only [List.get_eq_getElem] at hv
    rcases hk with rfl | rfl | rfl | rfl | rfl | rfl | rfl | rfl | rfl <;>
      simp [catRowField, mkCatRow, rowGet, hv]
  · intro k hk
    simp only [restoredColumns, List.mem_cons, List.not_mem_nil,
      or_false] at hk
    push_neg at hk
    obtain ⟨h1, h2, h3, h4, h5, h6, h7, h8, h9⟩ := hk
    simp [catRowField, h1, h2, h3, h4, h5, h6, h7, h8, h9]

/-- Witness for C1 on the concrete one-row capture with an `image_url`
field. -/
theorem c1_witness :
    ((0 : Nat) < rowsImg.length
      ∧ (∀ r ∈ rowsImg, (rowLookup "id" r).isSome)
      ∧ (rowsImg.map (fun r => rowLookup "id" r)).Nodup)
    ∧ (restoreCategories envFix rowsImg emptyDB
          ((mkCatRow (envFix 0) (rowsImg.get ⟨0, by decide⟩)).id)
        = some (mkCatRow (envFix 0) (rowsImg.get ⟨0, by decide⟩))
      ∧ (∀ k v, rowLookup k (rowsImg.get ⟨0, by decide⟩) = some v →
          k ∈ restoredColumns →
          catRowField (mkCatRow (envFix 0) (rowsImg.get ⟨0, by decide⟩)) k
            = some v)
      ∧ (∀ k, k ∉ restoredColumns →
          catRowField (mkCatRow (envFix 0) (rowsImg.get ⟨0, by decide⟩)) k
            = none)) :=
  ⟨⟨by decide, by decide, by decide⟩,
   c1_restored_fields envFix rowsImg 0 (by decide) (by decide) (by decide)⟩

/-- C5 (confirmed). Per-table error isolation: a table whose read raised
an exception with (non-empty) message `m` contributes exactly the entry
`{error: m, data: [], count: 0}` at its position, the manifest still has
one entry per listed table, and every table's entry is the independent
translation of its own read result. -/
theorem c5_error_isolation (tables : List (String × ReadResult)) (i : Nat)
    (n m : String) (h : tables[i]? = some (n, Except.error m))
    (hm : m ≠ "") :
    (extractAll tables).length = tables.length
    ∧ (extractAll tables)[i]? = some (n, TableEntry.err m [] 0)
    ∧ m ≠ ""
    ∧ ∀ (j : Nat) (p : String × ReadResult), tables[j]? = some p →
        (extractAll tables)[j]? = some (p.1, readResultEntry p.2) := by
  refine ⟨by simp [extractAll], ?_, hm, ?_⟩
  · rw [extractAll, List.getElem?_map _ tables i, h]
    rfl
  · intro j p hp
    rw [extractAll, List.getElem?_map _ tables j, hp]
    rfl

/-- Witness for C5 on the concrete two-table reader result whose second
table errored. -/
theorem c5_witness :
    (tablesW[1]? = some ("orders", Except.error "no such table: orders")
      ∧ "no such table: orders" ≠ "")
    ∧ ((extractAll tablesW).length = tablesW.length
       ∧ (extractAll tablesW)[1]?
           = some ("orders", TableEntry.err "no such table: orders" [] 0)
       ∧ "no such table: orders" ≠ ""
       ∧ ∀ (j : Nat) (p : String × ReadResult), tablesW[j]? = some p →
           (extractAll tablesW)[j]? = some (p.1, readResultEntry p.2)) :=
  ⟨⟨rfl, by decide⟩,
   c5_error_isolation tablesW 1 "orders" "no such table: orders" rfl
     (by decide)⟩

/-- C9 (confirmed). Column-order stability: for a successfully read table
whose column names are pairwise distinct and whose row tuples have one
value per column (as SQLite guarantees), the snapshot's column list is the
native column order, and each row mapping lists exactly those columns in
that order, pairing the i-th column name with the i-th value of the row
tuple it was read from. -/
theorem c9_column_order (columns : List String)
    (rows : List (List SqlValue)) (hnd : columns.Nodup)
    (hlen : ∀ row ∈ rows, row.length = columns.length) :
    (extractTableOk columns rows).columns = columns
    ∧ (extractTableOk columns rows).data
        = rows.map (fun row => pyDictOfPairs (columns.zip row))
    ∧ ∀ row ∈ rows,
        pyDictOfPairs (columns.zip row) = columns.zip row
        ∧ (pyDictOfPairs (columns.zip row)).map Prod.fst = columns
        ∧ ∀ (i : Nat) (h1 : i < columns.length) (h2 : i < row.length),
            (pyDictOfPairs (columns.zip row))[i]? = some (columns[i], row[i]) := by
  refine ⟨rfl, by simp [extractTableOk], ?_⟩
  intro row hrow
  have hlen1 : row.length = columns.length := hlen row hrow
  have hkeys : (columns.zip row).map Prod.fst = columns :=
    List.map_fst_zip _ _ (le_of_eq hlen1.symm)
  have hzip : pyDictOfPairs (columns.zip row) = columns.zip row :=
    pyDictOfPairs_eq_self _ (by rw [hkeys]; exact hnd)
  refine ⟨hzip, by rw [hzip, hkeys], ?_⟩
  intro i h1 h2
  rw [hzip]
  rw [List.getElem?_eq_getElem (by simp [List.length_zip]; omega)]
  exact congrArg some List.getElem_zip

/-- Witness for C9 on a concrete two-column, one-row table. -/
theorem c9_witness :
    (colsW.Nodup ∧ ∀ row ∈ rowsValsW, row.length = colsW.length)
    ∧ ((extractTableOk colsW rowsValsW).columns = colsW
       ∧ (extractTableOk colsW rowsValsW).data
           = rowsValsW.map (fun row => pyDictOfPairs (colsW.zip row))
       ∧ ∀ row ∈ rowsValsW,
           pyDictOfPairs (colsW.zip row) = colsW.zip row
           ∧ (pyDictOfPairs (colsW.zip row)).map Prod.fst = colsW
           ∧ ∀ (i : Nat) (h1 : i < colsW.length) (h2 : i < row.length),
               (pyDictOfPairs (colsW.zip row))[i]? = some (colsW[i], row[i])) :=
  ⟨⟨by decide, by decide⟩,
   c9_column_order colsW rowsValsW (by decide) (by decide)⟩

/-- C6 (confirmed). Pruning invariant: with pairwise-distinct category
document ids (a document-store guarantee), after the pruning flow every
remaining category's name is in the keep-list, and every remaining item's
`categoryId` is the document id of some remaining category. -/
theorem c6_pruning_invariant (keep : List String) (st : MenuState)
    (hnd : (st.cats.map CatDoc.id).Nodup) :
    (∀ c ∈ (clearFirebaseMenu keep st).cats, c.name ∈ keep)
    ∧ ∀ it ∈ (clearFirebaseMenu keep st).items,
        ∃ c ∈ (clearFirebaseMenu keep st).cats, c.id = it.categoryId := by
  constructor
  · intro c hc
    simp only [clearFirebaseMenu] at hc
    obtain ⟨hcmem, hnotdel⟩ := (mem_cats_after_deletes _ st c).mp hc
    by_contra hnk
    exact hnotdel c
      (List.mem_filter.mpr ⟨hcmem, by simp [hnk]⟩) rfl
  · intro it hit
    simp only [clearFirebaseMenu] at hit ⊢
    obtain ⟨hit1, hb⟩ := List.mem_filter.mp hit
    simp only [belongsToKeptCategory, List.any_eq_true, Bool.and_eq_true,
      beq_iff_eq, decide_eq_true_eq] at hb
    obtain ⟨c, hcmem, hcid, hcname⟩ := hb
    refine ⟨c, ?_, hcid⟩
    rw [mem_cats_after_deletes]
    refine ⟨hcmem, ?_⟩
    intro d hd heq
    have hdmem := (List.mem_filter.mp hd).1
    have hdname : d.name ∉ keep := by
      have := (List.mem_filter.mp hd).2
      simpa using this
    exact hdname (List.inj_on_of_nodup_map hnd hcmem hdmem heq ▸ hcname)

/-- Witness for C6 on a concrete store with two categories and a dangling
item, keeping only `Snacks`. -/
theorem c6_witness :
    (menuW.cats.map CatDoc.id).Nodup
    ∧ ((∀ c ∈ (clearFirebaseMenu ["Snacks"] menuW).cats, c.name ∈ ["Snacks"])
       ∧ ∀ it ∈ (clearFirebaseMenu ["Snacks"] menuW).items,
           ∃ c ∈ (clearFirebaseMenu ["Snacks"] menuW).cats,
             c.id = it.categoryId) :=
  ⟨by decide, c6_pruning_invariant ["Snacks"] menuW (by decide)⟩

/-- C3 counterexample: the generator embeds `datetime.now()` into the
script header, so two invocations on identical captured data (here: the
empty table) at different times produce different bytes. -/
theorem c3_determinism_counterexample :
    categoriesScriptContent "2025-08-29 23:41:19" []
      ≠ categoriesScriptContent "2025-08-30 00:00:00" [] := by
  intro h
  have hd := congrArg String.data h
  rw [c3_content_split, c3_content_split] at hd
  have h1 := List.append_cancel_left hd
  have h2 : ("2025-08-29 23:41:19" : String).data
      = ("2025-08-30 00:00:00" : String).data := List.append_cancel_right h1
  exact absurd h2 (by decide)

/-- C3 (corrected). Determinism up to the embedded generation timestamp:
on identical captured data the generator's output is identical outside the
timestamp field — the bytes before it are a fixed head, and the bytes
after it depend only on the captured data. -/
theorem c3_timestamp_isolated (t1 t2 : String) (cats : List Row) :
    (categoriesScriptContent t1 cats).data.take catsTplA.data.length
      = (categoriesScriptContent t2 cats).data.take catsTplA.data.length
    ∧ (categoriesScriptContent t1 cats).data.drop
          (catsTplA.data.length + t1.data.length)
      = (categoriesScriptContent t2 cats).data.drop
          (catsTplA.data.length + t2.data.length) := by
  constructor
  · rw [c3_content_split, c3_content_split, List.take_left, List.take_left]
  · rw [c3_content_split, c3_content_split]
    have hre : ∀ (a b r : List Char), a ++ (b ++ r) = (a ++ b) ++ r :=
      fun a b r => (List.append_assoc a b r).symm
    rw [hre, hre]
    have hlen : ∀ (a b : List Char), a.length + b.length = (a ++ b).length :=
      fun a b => (List.length_append a b).symm
    rw [hlen, hlen, List.drop_left, List.drop_left]
